import Mathlib

/-!
Verification of the response-delivery protocol engine of the gqlgen test
server (graphql/handler/testserver/testserver.go).

The engine turns one parsed operation into a sequence of response envelopes.
We embed the `ExecFunc` dispatch of `New` and the response-handler closures it
returns as explicit state machines: each closure suspends in a Go `select` on
three channels, which we model as a step function consuming one `Event`
(cancellation, a continuation trigger on the `next` channel, or a completion
trigger on the `completeSubscription` channel) per invocation and returning the
updated closure state together with an optional response.

The host dispatcher that repeatedly invokes a response handler lives in the
handler package, which is not part of the sources being verified; where a
property depends on it, the host loop is modelled from the spec and marked as
such in its doc comment.
-/

namespace Testserver

/-- The incremental-delivery marker searched for in the raw query text,
from strings.Contains(opCtx.RawQuery, "@defer") in New. -/
def deferMarker : String := "@defer"

/-- Payload of the initial deferred part: \x7b"name":null\x7d. -/
def deferredInitialData : String := "\x7b\"name\":null\x7d"

/-- Payload of the final deferred part, of each streaming message and of the
single-shot query result: \x7b"name":"test"\x7d. -/
def testNameData : String := "\x7b\"name\":\"test\"\x7d"

/-- Payload returned by the resolution step of NewError, literally null. -/
def nullData : String := "null"

/-- Error message for mutations, from graphql.ErrorResponse in New. -/
def mutationsNotSupported : String := "mutations are not supported"

/-- Error message for unknown operation kinds, from graphql.ErrorResponse
in New. -/
def unsupportedOperation : String := "unsupported GraphQL operation"

/-- Error message recorded by the NewError query handler via graphql.AddError. -/
def resolverErrorMsg : String := "resolver error"

/-- Whether pat occurs as a contiguous infix of l, embedding Go
strings.Contains on the underlying character lists. -/
def listHasInfix (pat : List Char) : List Char → Bool
  | [] => pat.isEmpty
  | c :: t => pat.isPrefixOf (c :: t) || listHasInfix pat t

/-- Go strings.Contains(s, pat). -/
def strContains (s pat : String) : Bool :=
  listHasInfix pat.toList s.toList

/-- ast.Operation, the operation kind of the parsed operation; other covers
every value outside the three enumerated kinds (the default switch case). -/
inductive OperationKind
  | query
  | mutation
  | subscription
  | other
deriving DecidableEq, Repr

/-- The part of graphql.OperationContext read by ExecFunc in New: the
operation kind and the raw query text. -/
structure OpCtx where
  operation : OperationKind
  rawQuery : String
deriving DecidableEq, Repr

/-- graphql.Response as constructed in testserver.go: a data payload (absent
for pure error responses), the optional HasNext flag and the error list,
each error reduced to its message. -/
structure Response where
  data : Option String
  hasNext : Option Bool
  errors : List String
deriving DecidableEq, Repr

/-- Modelled from the spec: graphql.ErrorResponse (graphql package, not under
the verified sources) builds a response that carries exactly one error entry
with the given message and no data payload. -/
def errorResponse (msg : String) : Response :=
  { data := none, hasNext := none, errors := [msg] }

/-- The initial envelope emitted by the deferred query handler:
data \x7b"name":null\x7d with HasNext true. -/
def deferredInitialEnvelope : Response :=
  { data := some deferredInitialData, hasNext := some true, errors := [] }

/-- The final envelope emitted by the deferred query handler:
data \x7b"name":"test"\x7d with HasNext false. -/
def deferredFinalEnvelope : Response :=
  { data := some testNameData, hasNext := some false, errors := [] }

/-- The envelope emitted by the subscription handler for each trigger on the
next channel: fixed data, no HasNext field. -/
def streamEnvelope : Response :=
  { data := some testNameData, hasNext := none, errors := [] }

/-- The envelope produced by the plain query resolution step in New:
fixed data, no HasNext field, no errors. -/
def singleShotEnvelope : Response :=
  { data := some testNameData, hasNext := none, errors := [] }

/-- One external event a suspended response handler can observe in its Go
select: cancellation of the operation context, a continuation trigger on the
next channel, or a completion trigger on the completeSubscription channel.
Handlers that never suspend (plain query, one-shot error responses) ignore
the event: for them an event is simply one invocation by the host. -/
inductive Event
  | cancel
  | next
  | complete
deriving DecidableEq, Repr

/-- The field context pushed by the plain query handler before running the
resolution step: graphql.FieldContext with Object, field name and alias. -/
structure FieldCtx where
  object : String
  fieldName : String
  fieldAlias : String
deriving DecidableEq, Repr

/-- The field context built in New for the plain query path. -/
def queryFieldCtx : FieldCtx :=
  { object := "Query", fieldName := "name", fieldAlias := "name" }

/-- One invocation of the plain (non-deferred) query handler of New. The
closure state is the ran flag. When ran is still false the handler pushes
queryFieldCtx and runs the resolution step through the resolver middleware.
Modelled from the spec: the resolver middleware chain (handler package, not
under the verified sources) is empty for this server and invokes the
resolution step directly, so the step yields singleShotEnvelope inside the
pushed field context. The returned log lists each execution of the resolution
step with the field context it ran in, so that exactly-once execution is
observable. -/
def singleShotInvoke (ran : Bool) : Bool × Option Response × List FieldCtx :=
  if ran then (true, none, [])
  else (true, some singleShotEnvelope, [queryFieldCtx])

/-- The response handler returned by ExecFunc for each operation kind.
oneShotErr is modelled from the spec: graphql.OneShot (graphql package, not
under the verified sources) wraps a fixed response, returning it on the first
invocation and terminal on every later one. -/
inductive Producer
  | deferred
  | singleShot
  | streamProducer
  | oneShotErr (msg : String)
deriving DecidableEq, Repr

/-- ExecFunc of New: dispatch on the operation kind; a query selects the
deferred handler exactly when the raw query contains the marker. -/
def execFunc (opCtx : OpCtx) : Producer :=
  match opCtx.operation with
  | .query =>
      if strContains opCtx.rawQuery deferMarker then Producer.deferred
      else Producer.singleShot
  | .mutation => Producer.oneShotErr mutationsNotSupported
  | .subscription => Producer.streamProducer
  | .other => Producer.oneShotErr unsupportedOperation

/-- The mutable closure state of each response handler: the deferred handler
holds its initialResponse flag, the plain query handler and the one-shot
error handlers hold their ran flag, the subscription handler is stateless. -/
inductive ProducerState
  | deferredSt (initialResponse : Bool)
  | singleShotSt (ran : Bool)
  | streamSt
  | oneShotSt (msg : String) (ran : Bool)
deriving DecidableEq, Repr

/-- The closure state each handler starts in when ExecFunc returns it. -/
def initState : Producer → ProducerState
  | .deferred => .deferredSt true
  | .singleShot => .singleShotSt false
  | .streamProducer => .streamSt
  | .oneShotErr m => .oneShotSt m false

/-- One invocation of a response handler, given the event its select observes
(or, for the non-suspending handlers, given one invocation by the host).
Returns the updated closure state and the response, none meaning terminal.
Mirrors the closures of New: the deferred handler answers cancellation and
completion with terminal and a next trigger with the initial or the final
envelope according to its initialResponse flag; the subscription handler
answers cancellation and completion with terminal and each next trigger with
streamEnvelope; the plain query and one-shot handlers ignore the event. -/
def step : ProducerState → Event → ProducerState × Option Response
  | .deferredSt b, .cancel => (.deferredSt b, none)
  | .deferredSt b, .next =>
      if b then (.deferredSt false, some deferredInitialEnvelope)
      else (.deferredSt false, some deferredFinalEnvelope)
  | .deferredSt b, .complete => (.deferredSt b, none)
  | .singleShotSt ran, _ =>
      ((singleShotInvoke ran).1 |> ProducerState.singleShotSt, (singleShotInvoke ran).2.1)
  | .streamSt, .cancel => (.streamSt, none)
  | .streamSt, .next => (.streamSt, some streamEnvelope)
  | .streamSt, .complete => (.streamSt, none)
  | .oneShotSt m ran, _ =>
      if ran then (.oneShotSt m true, none)
      else (.oneShotSt m true, some (errorResponse m))

/-- Modelled from the spec: the host dispatcher (handler package, not under
the verified sources) invokes the producer of one operation until it yields
terminal, and an envelope whose hasNext flag is false is the terminal part of
an incremental sequence, after which the host stops invoking. closed means
the host has stopped: no handler is suspended any more, so a delivered event
produces nothing. -/
inductive HostState
  | live (p : ProducerState)
  | closed
deriving DecidableEq, Repr

/-- One host round: deliver one event to the suspended handler (or drop it if
the host is closed), record its response, and close the host when the handler
returns terminal or emits the terminal incremental part (hasNext false). -/
def hostStep : HostState → Event → HostState × Option Response
  | .closed, _ => (.closed, none)
  | .live p, e =>
      match (step p e).2 with
      | none => (.closed, none)
      | some r =>
          (if r.hasNext = some false then .closed else .live (step p e).1, some r)

/-- Drive the host through a list of events, collecting every emitted
envelope in order. -/
def hostRun : HostState → List Event → List Response × HostState
  | h, [] => ([], h)
  | h, e :: es =>
      ((hostStep h e).2.toList ++ (hostRun (hostStep h e).1 es).1,
       (hostRun (hostStep h e).1 es).2)

/-- The subscription handler consuming a list of events, one invocation per
event; the handler is stateless so the outputs are independent. -/
def streamConsume : List Event → List Response
  | [] => []
  | e :: es => ((step .streamSt e).2).toList ++ streamConsume es

/-- Iterated invocation of the plain query handler from a given ran flag:
collects the emitted envelopes and the log of resolution-step executions. -/
def singleShotRun : Bool → Nat → List Response × List FieldCtx
  | _, 0 => ([], [])
  | ran, n + 1 =>
      ((singleShotInvoke ran).2.1.toList ++ (singleShotRun (singleShotInvoke ran).1 n).1,
       (singleShotInvoke ran).2.2 ++ (singleShotRun (singleShotInvoke ran).1 n).2)

/-- One invocation of the NewError query handler. State: the ran flag and the
error list accumulated on the operation context. When ran is still false it
records resolverErrorMsg via graphql.AddError and returns a response whose
data is the literal null payload and whose own error list is empty. -/
def newErrorInvoke (ran : Bool) (opErrors : List String) :
    Bool × List String × Option Response :=
  if ran then (true, opErrors, none)
  else (true, opErrors ++ [resolverErrorMsg],
        some { data := some nullData, hasNext := none, errors := [] })

/-- Modelled from the spec: the handler layer (not under the verified
sources) merges the errors recorded on the operation context via
graphql.AddError into the error list of the envelope the invocation returns,
leaving its data payload untouched. -/
def mergeErrors (opErrors : List String) (r : Response) : Response :=
  { r with errors := r.errors ++ opErrors }

/-- Outcome of the select in SendNextSubscriptionMessage and
SendCompleteSubscriptionMessage: either a suspended receiver takes the
trigger from the unbuffered channel, or the one-second time.After branch
fires and the warning is printed. -/
inductive SendResult
  | delivered
  | warnedNoActiveSubscription
deriving DecidableEq, Repr

/-- The select of SendNextSubscriptionMessage and
SendCompleteSubscriptionMessage, sending event e on the corresponding
unbuffered channel while the producer of the operation is in state p. A send
on an unbuffered channel succeeds only if a receiver is suspended on it
(suspended is true); otherwise the time.After branch fires after the bounded
one-second wait: the warning diagnostic is printed, nothing is delivered, and
the producer state is untouched. -/
def sendSignal (suspended : Bool) (p : ProducerState) (e : Event) :
    SendResult × ProducerState × Option Response :=
  if suspended then (SendResult.delivered, (step p e).1, (step p e).2)
  else (SendResult.warnedNoActiveSubscription, p, none)

/-- The TestServer state read and written by the complexity capability. -/
structure TestServerSt where
  complexity : Int
deriving DecidableEq, Repr

/-- A fresh TestServer: the complexity field is the zero value of a Go int. -/
def newServer : TestServerSt := { complexity := 0 }

/-- SetCalculatedComplexity. -/
def setCalculatedComplexity (s : TestServerSt) (c : Int) : TestServerSt :=
  { s with complexity := c }

/-- ComplexityFunc of the mocked executable schema: returns the current
complexity field of the server and true, ignoring every argument. Argument
maps are embedded as association lists. -/
def complexityFunc (s : TestServerSt) (typeName fieldName : String)
    (childComplexity : Int) (args : List (String × String)) : Int × Bool :=
  (s.complexity, true)

/-- A concrete deferred query used to instantiate the universally quantified
theorems. -/
def sampleDeferQuery : String := "query \x7b name @defer \x7d"

/-- Once the host is closed, no event ever produces an envelope again. -/
theorem hostRun_closed (es : List Event) :
    hostRun HostState.closed es = ([], HostState.closed) := by
  induction es with
  | nil => rfl
  | cons e es ih => simp [hostRun, hostStep, ih]

/-- A one-shot error handler that has already run emits nothing on any
further sequence of invocations. -/
theorem hostRun_oneShot_ran (m : String) (es : List Event) :
    (hostRun (HostState.live (ProducerState.oneShotSt m true)) es).1 = [] := by
  cases es with
  | nil => rfl
  | cons e es => simp [hostRun, hostStep, step, hostRun_closed]

/-- The plain query handler with its ran flag set emits nothing and runs no
resolution step, however many more times it is invoked. -/
theorem singleShotRun_ran (n : Nat) :
    singleShotRun true n = ([], []) := by
  induction n with
  | zero => rfl
  | succ n ih => simp [singleShotRun, singleShotInvoke, ih]

/-- Claim C1: for a query whose raw text contains the incremental-delivery
marker, the event sequence of two continuation triggers yields exactly two
envelopes, the first with hasNext true and a null placeholder payload, the
second with hasNext false and the final payload; a third continuation
trigger after that yields terminal with no envelope. -/
theorem c1_deferred_two_parts_then_terminal (q : String)
    (h : strContains q deferMarker = true) :
    execFunc { operation := OperationKind.query, rawQuery := q } = Producer.deferred ∧
    hostRun (HostState.live (initState
        (execFunc { operation := OperationKind.query, rawQuery := q })))
        [Event.next, Event.next]
      = ([deferredInitialEnvelope, deferredFinalEnvelope], HostState.closed) ∧
    deferredInitialEnvelope.hasNext = some true ∧
    deferredInitialEnvelope.data = some deferredInitialData ∧
    deferredFinalEnvelope.hasNext = some false ∧
    deferredFinalEnvelope.data = some testNameData ∧
    hostStep HostState.closed Event.next = (HostState.closed, none) := by
  have hsel : execFunc { operation := OperationKind.query, rawQuery := q }
      = Producer.deferred := by
    simp [execFunc, h]
  refine ⟨hsel, ?_, rfl, rfl, rfl, rfl, rfl⟩
  rw [hsel]
  rfl

/-- Claim C1 witness: the theorem applied at a concrete deferred query. -/
theorem c1_witness :
    strContains sampleDeferQuery deferMarker = true ∧
    (execFunc { operation := OperationKind.query, rawQuery := sampleDeferQuery }
        = Producer.deferred ∧
     hostRun (HostState.live (initState
         (execFunc { operation := OperationKind.query, rawQuery := sampleDeferQuery })))
         [Event.next, Event.next]
       = ([deferredInitialEnvelope, deferredFinalEnvelope], HostState.closed) ∧
     deferredInitialEnvelope.hasNext = some true ∧
     deferredInitialEnvelope.data = some deferredInitialData ∧
     deferredFinalEnvelope.hasNext = some false ∧
     deferredFinalEnvelope.data = some testNameData ∧
     hostStep HostState.closed Event.next = (HostState.closed, none)) :=
  ⟨by decide, c1_deferred_two_parts_then_terminal sampleDeferQuery (by decide)⟩

/-- Claim C2: for every producer, once an invocation returns terminal, every
subsequent invocation also returns terminal and emits no further envelope,
whatever triggers arrive afterwards. -/
theorem c2_terminal_is_idempotent (h : HostState) (e : Event) (es : List Event)
    (ht : (hostStep h e).2 = none) :
    (hostStep h e).1 = HostState.closed ∧
    hostRun HostState.closed es = ([], HostState.closed) := by
  refine ⟨?_, hostRun_closed es⟩
  cases h with
  | closed => rfl
  | live p =>
      cases hout : (step p e).2 with
      | none => simp [hostStep, hout]
      | some r => simp [hostStep, hout] at ht

/-- Claim C2 witness: the streaming producer closed by a completion trigger
stays terminal through two further continuation triggers. -/
theorem c2_witness :
    (hostStep (HostState.live ProducerState.streamSt) Event.complete).2 = none ∧
    ((hostStep (HostState.live ProducerState.streamSt) Event.complete).1
        = HostState.closed ∧
     hostRun HostState.closed [Event.next, Event.next] = ([], HostState.closed)) :=
  ⟨by decide,
   c2_terminal_is_idempotent (HostState.live ProducerState.streamSt) Event.complete
     [Event.next, Event.next] (by decide)⟩

/-- Claim C3: the subscription handler yields exactly one envelope per
continuation trigger, of fixed shape with no hasNext field: n consecutive
continuation triggers consumed while suspended yield exactly n copies of
streamEnvelope, none coalesced and none dropped. -/
theorem c3_stream_one_envelope_per_trigger (n : Nat) :
    streamConsume (List.replicate n Event.next) = List.replicate n streamEnvelope ∧
    streamEnvelope.hasNext = none := by
  refine ⟨?_, rfl⟩
  induction n with
  | zero => rfl
  | succ n ih => simp [List.replicate_succ, streamConsume, step, ih]

/-- Claim C4: a cancellation event observed while suspended yields terminal
with zero envelopes for the deferred handler in either phase and for the
subscription handler, and no later pending trigger produces anything once
the host has stopped. -/
theorem c4_cancel_yields_terminal (b : Bool) (es : List Event) :
    step (ProducerState.deferredSt b) Event.cancel = (ProducerState.deferredSt b, none) ∧
    step ProducerState.streamSt Event.cancel = (ProducerState.streamSt, none) ∧
    hostRun (HostState.live (ProducerState.deferredSt b)) (Event.cancel :: es)
      = ([], HostState.closed) ∧
    hostRun (HostState.live ProducerState.streamSt) (Event.cancel :: es)
      = ([], HostState.closed) := by
  refine ⟨rfl, rfl, ?_, ?_⟩ <;> simp [hostRun, hostStep, step, hostRun_closed]

/-- Claim C5: mutations and unknown operation kinds each select a one-shot
producer whose first invocation yields exactly one envelope carrying exactly
one error entry, with distinct messages between the two cases, and every
later invocation is terminal with no further envelope. -/
theorem c5_mutation_and_unknown_error (q : String) (e : Event) (es : List Event)
    (m : String) :
    execFunc { operation := OperationKind.mutation, rawQuery := q }
      = Producer.oneShotErr mutationsNotSupported ∧
    execFunc { operation := OperationKind.other, rawQuery := q }
      = Producer.oneShotErr unsupportedOperation ∧
    mutationsNotSupported ≠ unsupportedOperation ∧
    (hostRun (HostState.live (initState (Producer.oneShotErr m))) (e :: es)).1
      = [errorResponse m] ∧
    (errorResponse m).errors.length = 1 := by
  refine ⟨rfl, rfl, by decide, ?_, rfl⟩
  simp [hostRun, hostStep, step, initState, errorResponse, hostRun_oneShot_ran]

/-- Claim C6: strategy selection is a function of the operation context
alone: a query selects the deferred producer exactly when its raw text
contains the marker and the single-shot producer otherwise, and a
subscription always selects the streaming producer. -/
theorem c6_selector_is_function_of_context (q : String) :
    (execFunc { operation := OperationKind.query, rawQuery := q } = Producer.deferred
        ↔ strContains q deferMarker = true) ∧
    (execFunc { operation := OperationKind.query, rawQuery := q } = Producer.singleShot
        ↔ strContains q deferMarker = false) ∧
    execFunc { operation := OperationKind.subscription, rawQuery := q }
      = Producer.streamProducer := by
  cases hb : strContains q deferMarker <;> simp [execFunc, hb]

/-- Claim C7: the plain query handler emits one real envelope with no
hasNext field and then terminal: across n plus one invocations the
resolution step runs exactly once, inside the pushed field context with
Object Query and field name as configured, and once the ran flag is set
every invocation is terminal because the flag is never reset. -/
theorem c7_single_shot_runs_once (n : Nat) :
    singleShotRun false (n + 1) = ([singleShotEnvelope], [queryFieldCtx]) ∧
    singleShotEnvelope.hasNext = none ∧
    queryFieldCtx.object = ("Query") ∧
    queryFieldCtx.fieldName = ("name") ∧
    singleShotInvoke true = (true, none, []) := by
  refine ⟨?_, rfl, rfl, rfl, rfl⟩
  simp [singleShotRun, singleShotInvoke, singleShotRun_ran n]

/-- Claim C8: an error recorded via AddError during the resolution step is
merged into the error list of the envelope that invocation returns, while
the data payload of the resolution step is emitted unchanged in the same
envelope; in NewError the delivered payload is null exactly because the
resolution step itself returns the null literal. -/
theorem c8_adderror_merged_with_data (r : Response) (opErrs : List String) :
    (mergeErrors opErrs r).data = r.data ∧
    (mergeErrors opErrs r).errors = r.errors ++ opErrs ∧
    newErrorInvoke false []
      = (true, [resolverErrorMsg],
         some { data := some nullData, hasNext := none, errors := [] }) ∧
    mergeErrors [resolverErrorMsg]
        { data := some nullData, hasNext := none, errors := [] }
      = { data := some nullData, hasNext := none, errors := [resolverErrorMsg] } :=
  ⟨rfl, rfl, rfl, rfl⟩

/-- Claim C9: sending a continuation or completion trigger when no handler
is suspended on the corresponding channel does not hang the caller: the
timeout branch of the select fires, the non-fatal warning diagnostic is
reported, nothing is delivered and the producer state is left unchanged;
when a handler is suspended the trigger is delivered to its select instead. -/
theorem c9_send_without_consumer_warns (p : ProducerState) (e : Event) :
    sendSignal false p e = (SendResult.warnedNoActiveSubscription, p, none) ∧
    (sendSignal false p e).2.1 = p ∧
    sendSignal true p e = (SendResult.delivered, (step p e).1, (step p e).2) :=
  ⟨rfl, rfl, rfl⟩

/-- Claim C10: the complexity capability ignores all of its arguments: it
returns the most recently set complexity paired with true, 0 for a fresh
server, so any two calls between the same updates return identical results. -/
theorem c10_complexity_ignores_arguments (s : TestServerSt)
    (t1 f1 : String) (cc1 : Int) (a1 : List (String × String))
    (t2 f2 : String) (cc2 : Int) (a2 : List (String × String)) (v : Int) :
    complexityFunc s t1 f1 cc1 a1 = (s.complexity, true) ∧
    complexityFunc s t1 f1 cc1 a1 = complexityFunc s t2 f2 cc2 a2 ∧
    complexityFunc (setCalculatedComplexity s v) t1 f1 cc1 a1 = (v, true) ∧
    complexityFunc newServer t1 f1 cc1 a1 = (0, true) :=
  ⟨rfl, rfl, rfl, rfl⟩

end Testserver
